import Mathlib

/-!
Shallow embedding of `examples/scene_viewer.rs` (bevy_mod_fbx scene viewer).

The viewer's numeric state is `f32`; we idealize it as `ℝ`.  Vectors
(`Vec3`, `Vec2`) are records of reals.  Rotations are only ever built in
this program by `Quat::from_euler(EulerRot::ZYX, _, _, _)`, so a rotation
is represented by that intrinsic Z-Y-X Euler-angle triple.
-/

namespace SceneViewer

attribute [local instance] Classical.propDecidable

/-- Rust `str::ends_with`, modelled on the character list. -/
def endsWithStr (s suffix : String) : Bool := suffix.data.isSuffixOf s.data

/-- The `#Scene` handling of `setup` (examples/scene_viewer.rs, `setup`):
the first CLI argument, defaulting to `assets/cube.fbx`; the suffix
`#Scene` is appended when not already present. -/
def scenePath (arg : Option String) : String :=
  let p := match arg with
    | some s => s
    | none => "assets/cube.fbx"
  if !(endsWithStr p "#Scene") then p ++ "#Scene" else p

/-- Key codes used by the viewer (subset of Bevy `KeyCode`). -/
inductive KeyCode where
  | W | S | A | D | E | Q | LShift | M | L | U
  | Key5 | Key6 | Key7 | Key8 | Key9 | Key0
  | C | Escape
deriving DecidableEq

/-- Mouse buttons (subset of Bevy `MouseButton`). -/
inductive MouseButton where
  | Left | Right | Middle
deriving DecidableEq

/-- glam `Vec2` over ℝ. -/
structure Vec2 where
  x : ℝ
  y : ℝ

def Vec2.zero : Vec2 := ⟨0, 0⟩

def Vec2.add (a b : Vec2) : Vec2 := ⟨a.x + b.x, a.y + b.y⟩

/-- glam `Vec3` over ℝ. -/
structure Vec3 where
  x : ℝ
  y : ℝ
  z : ℝ

def Vec3.zero : Vec3 := ⟨0, 0, 0⟩

def Vec3.one : Vec3 := ⟨1, 1, 1⟩

/-- The `Vec3::Y` unit vector. -/
def Vec3.unitY : Vec3 := ⟨0, 1, 0⟩

def Vec3.add (a b : Vec3) : Vec3 := ⟨a.x + b.x, a.y + b.y, a.z + b.z⟩

/-- scalar * vector (`f32 * Vec3`). -/
def Vec3.smul (s : ℝ) (v : Vec3) : Vec3 := ⟨s * v.x, s * v.y, s * v.z⟩

/-- vector * scalar (`Vec3 * f32`). -/
def Vec3.mulScalar (v : Vec3) (s : ℝ) : Vec3 := ⟨v.x * s, v.y * s, v.z * s⟩

/-- glam `Vec3::length_squared` (dot of the vector with itself). -/
def Vec3.lengthSquared (v : Vec3) : ℝ := v.x * v.x + v.y * v.y + v.z * v.z

noncomputable def Vec3.length (v : Vec3) : ℝ := Real.sqrt v.lengthSquared

/-- glam `Vec3::normalize`: the vector times the reciprocal of its length
(the caller guards against the zero vector). -/
noncomputable def Vec3.normalize (v : Vec3) : Vec3 := v.mulScalar v.length⁻¹

/-- Rotation represented by the angles `(z, y, x)` of
`Quat::from_euler(EulerRot::ZYX, z, y, x)` — the only constructor this
program uses (with zero roll). -/
structure Quat where
  z : ℝ
  y : ℝ
  x : ℝ

def Quat.fromEulerZYX (a b c : ℝ) : Quat := ⟨a, b, c⟩

/-- Decomposition `Quat::to_euler(EulerRot::YXZ)`, returning
`(yaw, pitch, roll)`.  For the
canonical zero-roll rotations this program constructs, the Y-X-Z
decomposition returns exactly the stored yaw/pitch angles. -/
def Quat.toEulerYXZ (q : Quat) : ℝ × ℝ × ℝ := (q.y, q.x, q.z)

/-- Rotation about the X axis by `θ` applied to a vector. -/
noncomputable def rotX (θ : ℝ) (v : Vec3) : Vec3 :=
  ⟨v.x, v.y * Real.cos θ - v.z * Real.sin θ, v.y * Real.sin θ + v.z * Real.cos θ⟩

/-- Rotation about the Y axis by `θ` applied to a vector. -/
noncomputable def rotY (θ : ℝ) (v : Vec3) : Vec3 :=
  ⟨v.x * Real.cos θ + v.z * Real.sin θ, v.y, -v.x * Real.sin θ + v.z * Real.cos θ⟩

/-- Rotation about the Z axis by `θ` applied to a vector. -/
noncomputable def rotZ (θ : ℝ) (v : Vec3) : Vec3 :=
  ⟨v.x * Real.cos θ - v.y * Real.sin θ, v.x * Real.sin θ + v.y * Real.cos θ, v.z⟩

/-- Apply the rotation (intrinsic Z-Y-X Euler angles) to a vector. -/
noncomputable def Quat.rotate (q : Quat) (v : Vec3) : Vec3 :=
  rotZ q.z (rotY q.y (rotX q.x v))

/-- Bevy `Transform` (scale is carried but never touched by the viewer). -/
structure Transform where
  translation : Vec3
  rotation : Quat
  scale : Vec3

/-- Bevy `Transform::forward()` = rotation applied to `-Z`. -/
noncomputable def Transform.forward (t : Transform) : Vec3 := t.rotation.rotate ⟨0, 0, -1⟩

/-- Bevy `Transform::right()` = rotation applied to `X`. -/
noncomputable def Transform.right (t : Transform) : Vec3 := t.rotation.rotate ⟨1, 0, 0⟩

/-- Rust `f32::clamp(lo, hi)`. -/
noncomputable def clampR (x lo hi : ℝ) : ℝ := if x < lo then lo else if x > hi then hi else x

/-- The `CameraController` component (examples/scene_viewer.rs, lines 172-192). -/
structure CameraController where
  enabled : Bool
  initialized : Bool
  sensitivity : ℝ
  key_forward : KeyCode
  key_back : KeyCode
  key_left : KeyCode
  key_right : KeyCode
  key_up : KeyCode
  key_down : KeyCode
  key_run : KeyCode
  mouse_key_enable_mouse : MouseButton
  keyboard_key_enable_mouse : KeyCode
  walk_speed : ℝ
  run_speed : ℝ
  friction : ℝ
  pitch : ℝ
  yaw : ℝ
  velocity : Vec3

/-- The `impl Default for CameraController` values. -/
def CameraController.default : CameraController where
  enabled := true
  initialized := false
  sensitivity := 0.5
  key_forward := KeyCode.W
  key_back := KeyCode.S
  key_left := KeyCode.A
  key_right := KeyCode.D
  key_up := KeyCode.E
  key_down := KeyCode.Q
  key_run := KeyCode.LShift
  mouse_key_enable_mouse := MouseButton.Left
  keyboard_key_enable_mouse := KeyCode.M
  walk_speed := 5.0
  run_speed := 15.0
  friction := 0.5
  pitch := 0
  yaw := 0
  velocity := Vec3.zero

/-- One frame of input to the `camera_controller` system: the time delta,
the queued mouse-motion deltas, and the pressed / just-pressed sets. -/
structure CamInput where
  dt : ℝ
  mouseEvents : List Vec2
  mousePressed : MouseButton → Bool
  keyPressed : KeyCode → Bool
  keyJustPressed : KeyCode → Bool

/-- The per-entity and `Local` state touched by `camera_controller`. -/
structure CamState where
  transform : Transform
  options : CameraController
  moveToggled : Bool

/-- First-invocation initialization (lines 230-235): derive yaw/pitch from
the current rotation, then mark initialized. -/
def initOptions (t : Transform) (c : CameraController) : CameraController :=
  if c.initialized then c
  else
    let e := t.rotation.toEulerYXZ
    { c with yaw := e.1, pitch := e.2.1, initialized := true }

/-- Movement axis input (lines 241-259): starts at zero, each held movement
key adds ±1 to its axis. -/
def axisInput (pressed : KeyCode → Bool) (c : CameraController) : Vec3 :=
  let a0 := Vec3.zero
  let a1 := if pressed c.key_forward then { a0 with z := a0.z + 1 } else a0
  let a2 := if pressed c.key_back then { a1 with z := a1.z - 1 } else a1
  let a3 := if pressed c.key_right then { a2 with x := a2.x + 1 } else a2
  let a4 := if pressed c.key_left then { a3 with x := a3.x - 1 } else a3
  let a5 := if pressed c.key_up then { a4 with y := a4.y + 1 } else a4
  if pressed c.key_down then { a5 with y := a5.y - 1 } else a5

/-- Friction decay branch (lines 272-277): scale velocity by
`1 - clamp(friction, 0, 1)` and snap to zero below the `1e-6`
squared-magnitude threshold. -/
noncomputable def decayVelocity (c : CameraController) : Vec3 :=
  let friction := clampR c.friction 0 1
  let v := Vec3.smul (1 - friction) c.velocity
  if v.lengthSquared < 1e-6 then Vec3.zero else v

/-- Velocity update (lines 265-278). -/
noncomputable def updatedVelocity (pressed : KeyCode → Bool) (c : CameraController) : Vec3 :=
  if axisInput pressed c ≠ Vec3.zero then
    let maxSpeed := if pressed c.key_run then c.run_speed else c.walk_speed
    (axisInput pressed c).normalize.mulScalar maxSpeed
  else decayVelocity c

/-- Sum of the queued mouse-motion deltas (lines 288-290). -/
def sumDelta (events : List Vec2) : Vec2 :=
  events.foldl (fun acc e => acc.add e) Vec2.zero

/-- Accumulated mouse delta for the frame (lines 286-291): nonzero only
while the enable-mouse button is held or the latch is on. -/
def frameMouseDelta (inp : CamInput) (c : CameraController) (toggled : Bool) : Vec2 :=
  if inp.mousePressed c.mouse_key_enable_mouse || toggled then sumDelta inp.mouseEvents
  else Vec2.zero

/-- Look update (lines 293-305): when the delta is nonzero, clamp the new
pitch into `±0.99·π/2`, update yaw, and rebuild the rotation from
`(roll = 0, yaw, pitch)`. -/
noncomputable def lookUpdate (dt : ℝ) (delta : Vec2) (t : Transform) (c : CameraController) :
    Transform × CameraController :=
  if delta ≠ Vec2.zero then
    let pitch := clampR (c.pitch - delta.y * 0.5 * c.sensitivity * dt)
      (-0.99 * (Real.pi / 2)) (0.99 * (Real.pi / 2))
    let yaw := c.yaw - delta.x * c.sensitivity * dt
    ({ t with rotation := Quat.fromEulerZYX 0 yaw pitch },
     { c with pitch := pitch, yaw := yaw })
  else (t, c)

/-- One frame of the `camera_controller` system (lines 219-307). -/
noncomputable def cameraController (inp : CamInput) (s : CamState) : CamState :=
  let dt := inp.dt
  let options := initOptions s.transform s.options
  if options.enabled then
    let moveToggled :=
      if inp.keyJustPressed options.keyboard_key_enable_mouse then !s.moveToggled
      else s.moveToggled
    let options := { options with velocity := updatedVelocity inp.keyPressed options }
    let forward := s.transform.forward
    let right := s.transform.right
    let translation :=
      ((s.transform.translation.add (Vec3.smul (options.velocity.x * dt) right)).add
        (Vec3.smul (options.velocity.y * dt) Vec3.unitY)).add
        (Vec3.smul (options.velocity.z * dt) forward)
    let transform := { s.transform with translation := translation }
    let mouseDelta := frameMouseDelta inp options moveToggled
    let tc := lookUpdate dt mouseDelta transform options
    { transform := tc.1, options := tc.2, moveToggled := moveToggled }
  else { s with options := options }

/-- Iterated frames of the camera controller under a fixed input. -/
noncomputable def iterCamera (inp : CamInput) : Nat → CamState → CamState
  | 0, s => s
  | n + 1, s => cameraController inp (iterCamera inp n s)

/-- An input frame with no keys, no buttons and no mouse motion. -/
def stillInput (dt : ℝ) : CamInput where
  dt := dt
  mouseEvents := []
  mousePressed := fun _ => false
  keyPressed := fun _ => false
  keyJustPressed := fun _ => false

/-! ### Light adjuster (`update_lights`, lines 123-170) -/

/-- The `SCALE_STEP` constant (line 123). -/
def SCALE_STEP : ℝ := 0.1

/-- The `std::f32::consts::TAU` constant, idealized. -/
noncomputable def TAU : ℝ := 2 * Real.pi

/-- Bevy `OrthographicProjection` (the six shadow-frustum bounds). -/
structure OrthographicProjection where
  left : ℝ
  right : ℝ
  bottom : ℝ
  top : ℝ
  near : ℝ
  far : ℝ

/-- Bevy `DirectionalLight` (the fields the viewer touches or sets). -/
structure DirectionalLight where
  illuminance : ℝ
  shadow_projection : OrthographicProjection
  shadows_enabled : Bool

/-- The per-entity state touched by `update_lights`. -/
structure LightState where
  transform : Transform
  light : DirectionalLight

/-- One frame of input to `update_lights`: just-pressed keys and
`time.seconds_since_startup()`. -/
structure LightInput where
  keyJustPressed : KeyCode → Bool
  secondsSinceStartup : ℝ

/-- Frustum adjustment factor (lines 131-144): starts at `Vec3::ONE`; an
exclusive else-if chain over keys 5,6,7,8,9,0 adds `±SCALE_STEP` to one
component. -/
def projectionAdjustment (just : KeyCode → Bool) : Vec3 :=
  let p := Vec3.one
  if just KeyCode.Key5 then { p with x := p.x - SCALE_STEP }
  else if just KeyCode.Key6 then { p with x := p.x + SCALE_STEP }
  else if just KeyCode.Key7 then { p with y := p.y - SCALE_STEP }
  else if just KeyCode.Key8 then { p with y := p.y + SCALE_STEP }
  else if just KeyCode.Key9 then { p with z := p.z - SCALE_STEP }
  else if just KeyCode.Key0 then { p with z := p.z + SCALE_STEP }
  else p

/-- One frame of the `update_lights` system (lines 125-170), for one light
entity; `animate` is the `Local<bool>` animate-directional-light flag,
returned updated. -/
noncomputable def updateLights (inp : LightInput) (s : LightState) (animate : Bool) :
    LightState × Bool :=
  let adj := projectionAdjustment inp.keyJustPressed
  let proj := s.light.shadow_projection
  let light :=
    { s.light with
      shadow_projection :=
        { left := proj.left * adj.x
          right := proj.right * adj.x
          bottom := proj.bottom * adj.y
          top := proj.top * adj.y
          near := proj.near * adj.z
          far := proj.far * adj.z } }
  let light :=
    if inp.keyJustPressed KeyCode.U then { light with shadows_enabled := !light.shadows_enabled }
    else light
  let animate := if inp.keyJustPressed KeyCode.L then !animate else animate
  let transform :=
    if animate then
      { s.transform with
        rotation := Quat.fromEulerZYX 0 (inp.secondsSinceStartup * TAU / 30) (-TAU / 8) }
    else s.transform
  (⟨transform, light⟩, animate)

/-- Iterated frames of `update_lights` under a fixed input. -/
noncomputable def iterLights (inp : LightInput) : Nat → LightState × Bool → LightState × Bool
  | 0, p => p
  | n + 1, p => updateLights inp (iterLights inp n p).1 (iterLights inp n p).2

/-- The shadow projection spawned by `setup` (lines 89-109): the `Aabb` of
the sphere centred at `(3,3,3)` with radius `100` gives `min = -97` and
`max = 103` on every axis (both exact in `f32`). -/
def setupProjection : OrthographicProjection :=
  { left := -97, right := 103, bottom := -97, top := 103, near := -97, far := 103 }

/-- The directional light spawned by `setup` (lines 98-114). -/
def setupLight : DirectionalLight :=
  { illuminance := 20000, shadow_projection := setupProjection, shadows_enabled := false }

/-- A light-frame input where exactly one key is just-pressed. -/
def onlyKey (k0 : KeyCode) (t : ℝ) : LightInput where
  keyJustPressed := fun k => decide (k = k0)
  secondsSinceStartup := t

/-! ### Concrete states and inputs used to instantiate the theorems -/

/-- An identity transform. -/
def idTransform : Transform where
  translation := Vec3.zero
  rotation := ⟨0, 0, 0⟩
  scale := Vec3.one

/-- Camera state with the default controller. -/
def defaultCamState : CamState where
  transform := idTransform
  options := CameraController.default
  moveToggled := false

/-- A disabled, already-initialized camera state. -/
def disabledCamState : CamState where
  transform := idTransform
  options := { CameraController.default with enabled := false, initialized := true }
  moveToggled := false

/-- Initialized default controller moving at `(4,0,0)` (friction `0.5`). -/
def decayCamState : CamState where
  transform := idTransform
  options := { CameraController.default with initialized := true, velocity := ⟨4, 0, 0⟩ }
  moveToggled := false

/-- Initialized controller with friction `0`, moving at `(4,0,0)`. -/
def fric0CamState : CamState where
  transform := idTransform
  options :=
    { CameraController.default with initialized := true, friction := 0, velocity := ⟨4, 0, 0⟩ }
  moveToggled := false

/-- Frame input holding forward (`W`), right (`D`) and run (`LShift`). -/
def runDiagInput : CamInput where
  dt := 1
  mouseEvents := []
  mousePressed := fun _ => false
  keyPressed := fun k =>
    decide (k = KeyCode.W) || decide (k = KeyCode.D) || decide (k = KeyCode.LShift)
  keyJustPressed := fun _ => false

/-- Frame input holding the left mouse button with a small mouse motion. -/
def lookInput : CamInput where
  dt := 1
  mouseEvents := [⟨1, 1⟩]
  mousePressed := fun _ => true
  keyPressed := fun _ => false
  keyJustPressed := fun _ => false

/-- Frame input holding the left mouse button with a huge downward-pitch
mouse motion. -/
def bigLookInput : CamInput where
  dt := 1
  mouseEvents := [⟨0, 10000⟩]
  mousePressed := fun _ => true
  keyPressed := fun _ => false
  keyJustPressed := fun _ => false

/-- Frame input where only the mouse-look toggle key `M` is just-pressed. -/
def pressMInput : CamInput where
  dt := 1
  mouseEvents := []
  mousePressed := fun _ => false
  keyPressed := fun _ => false
  keyJustPressed := fun k => decide (k = KeyCode.M)

/-! ### Helper lemmas -/

theorem initOptions_enabled (t : Transform) (c : CameraController) :
    (initOptions t c).enabled = c.enabled := by
  unfold initOptions; split <;> rfl

theorem initOptions_keyboard (t : Transform) (c : CameraController) :
    (initOptions t c).keyboard_key_enable_mouse = c.keyboard_key_enable_mouse := by
  unfold initOptions; split <;> rfl

theorem initOptions_mouse_key (t : Transform) (c : CameraController) :
    (initOptions t c).mouse_key_enable_mouse = c.mouse_key_enable_mouse := by
  unfold initOptions; split <;> rfl

theorem initOptions_friction (t : Transform) (c : CameraController) :
    (initOptions t c).friction = c.friction := by
  unfold initOptions; split <;> rfl

theorem initOptions_velocity (t : Transform) (c : CameraController) :
    (initOptions t c).velocity = c.velocity := by
  unfold initOptions; split <;> rfl

theorem initOptions_keys (t : Transform) (c : CameraController) :
    (initOptions t c).key_forward = c.key_forward ∧
    (initOptions t c).key_back = c.key_back ∧
    (initOptions t c).key_left = c.key_left ∧
    (initOptions t c).key_right = c.key_right ∧
    (initOptions t c).key_up = c.key_up ∧
    (initOptions t c).key_down = c.key_down ∧
    (initOptions t c).key_run = c.key_run := by
  unfold initOptions; split <;> exact ⟨rfl, rfl, rfl, rfl, rfl, rfl, rfl⟩

theorem initOptions_speeds (t : Transform) (c : CameraController) :
    (initOptions t c).walk_speed = c.walk_speed ∧ (initOptions t c).run_speed = c.run_speed := by
  unfold initOptions; split <;> exact ⟨rfl, rfl⟩

theorem initOptions_sensitivity (t : Transform) (c : CameraController) :
    (initOptions t c).sensitivity = c.sensitivity := by
  unfold initOptions; split <;> rfl

theorem lookUpdate_snd_enabled (dt : ℝ) (d : Vec2) (t : Transform) (c : CameraController) :
    (lookUpdate dt d t c).2.enabled = c.enabled := by
  unfold lookUpdate; split <;> rfl

theorem lookUpdate_snd_velocity (dt : ℝ) (d : Vec2) (t : Transform) (c : CameraController) :
    (lookUpdate dt d t c).2.velocity = c.velocity := by
  unfold lookUpdate; split <;> rfl

theorem lookUpdate_snd_friction (dt : ℝ) (d : Vec2) (t : Transform) (c : CameraController) :
    (lookUpdate dt d t c).2.friction = c.friction := by
  unfold lookUpdate; split <;> rfl

theorem lookUpdate_snd_keyboard (dt : ℝ) (d : Vec2) (t : Transform) (c : CameraController) :
    (lookUpdate dt d t c).2.keyboard_key_enable_mouse = c.keyboard_key_enable_mouse := by
  unfold lookUpdate; split <;> rfl

theorem axisInput_congr (p : KeyCode → Bool) (t : Transform) (c : CameraController) :
    axisInput p (initOptions t c) = axisInput p c := by
  unfold axisInput
  rw [(initOptions_keys t c).1, (initOptions_keys t c).2.1, (initOptions_keys t c).2.2.1,
    (initOptions_keys t c).2.2.2.1, (initOptions_keys t c).2.2.2.2.1,
    (initOptions_keys t c).2.2.2.2.2.1]

theorem Vec3.lengthSquared_nonneg (v : Vec3) : 0 ≤ v.lengthSquared := by
  unfold Vec3.lengthSquared
  nlinarith [mul_self_nonneg v.x, mul_self_nonneg v.y, mul_self_nonneg v.z]

theorem Vec3.eq_zero_of_lengthSquared_eq_zero (v : Vec3) (h : v.lengthSquared = 0) :
    v = Vec3.zero := by
  obtain ⟨x, y, z⟩ := v
  unfold Vec3.lengthSquared at h
  simp only at h
  have hx : x * x = 0 :=
    le_antisymm (by nlinarith [mul_self_nonneg y, mul_self_nonneg z]) (mul_self_nonneg x)
  have hy : y * y = 0 :=
    le_antisymm (by nlinarith [mul_self_nonneg x, mul_self_nonneg z]) (mul_self_nonneg y)
  have hz : z * z = 0 :=
    le_antisymm (by nlinarith [mul_self_nonneg x, mul_self_nonneg y]) (mul_self_nonneg z)
  simp only [Vec3.zero, Vec3.mk.injEq]
  exact ⟨mul_self_eq_zero.mp hx, mul_self_eq_zero.mp hy, mul_self_eq_zero.mp hz⟩

theorem Vec3.lengthSquared_pos (v : Vec3) (hv : v ≠ Vec3.zero) : 0 < v.lengthSquared :=
  lt_of_le_of_ne (Vec3.lengthSquared_nonneg v)
    (fun h => hv (Vec3.eq_zero_of_lengthSquared_eq_zero v h.symm))

theorem Vec3.length_pos (v : Vec3) (hv : v ≠ Vec3.zero) : 0 < v.length :=
  Real.sqrt_pos.mpr (Vec3.lengthSquared_pos v hv)

theorem Vec3.lengthSquared_mulScalar (v : Vec3) (s : ℝ) :
    (v.mulScalar s).lengthSquared = v.lengthSquared * (s * s) := by
  simp only [Vec3.mulScalar, Vec3.lengthSquared]
  ring

theorem Vec3.length_mulScalar (v : Vec3) (s : ℝ) :
    (v.mulScalar s).length = v.length * |s| := by
  unfold Vec3.length
  rw [Vec3.lengthSquared_mulScalar, Real.sqrt_mul (Vec3.lengthSquared_nonneg v),
    Real.sqrt_mul_self_eq_abs]

theorem Vec3.normalize_length (v : Vec3) (hv : v ≠ Vec3.zero) : v.normalize.length = 1 := by
  unfold Vec3.normalize
  rw [Vec3.length_mulScalar]
  have h := Vec3.length_pos v hv
  rw [abs_inv, abs_of_pos h, mul_inv_cancel₀ (ne_of_gt h)]

theorem Vec3.lengthSquared_smul (s : ℝ) (v : Vec3) :
    (Vec3.smul s v).lengthSquared = s * s * v.lengthSquared := by
  simp only [Vec3.smul, Vec3.lengthSquared]
  ring

theorem clampR_mem (x lo hi : ℝ) (h : lo ≤ hi) :
    lo ≤ clampR x lo hi ∧ clampR x lo hi ≤ hi := by
  unfold clampR
  split_ifs with h1 h2
  · exact ⟨le_refl _, h⟩
  · exact ⟨h, le_refl _⟩
  · exact ⟨not_lt.mp h1, not_lt.mp h2⟩

theorem frameMouseDelta_pressed (inp : CamInput) (c : CameraController) (toggled : Bool)
    (hmb : inp.mousePressed c.mouse_key_enable_mouse = true) :
    frameMouseDelta inp c toggled = sumDelta inp.mouseEvents := by
  unfold frameMouseDelta
  rw [hmb]
  simp

theorem lookUpdate_snd_pitch (dt : ℝ) (d : Vec2) (t : Transform) (c : CameraController)
    (hd : d ≠ Vec2.zero) :
    (lookUpdate dt d t c).2.pitch =
      clampR (c.pitch - d.y * 0.5 * c.sensitivity * dt)
        (-0.99 * (Real.pi / 2)) (0.99 * (Real.pi / 2)) := by
  unfold lookUpdate
  rw [if_pos hd]

theorem cameraController_pitch (inp : CamInput) (s : CamState)
    (hen : s.options.enabled = true)
    (hmb : inp.mousePressed s.options.mouse_key_enable_mouse = true)
    (hd : sumDelta inp.mouseEvents ≠ Vec2.zero) :
    (cameraController inp s).options.pitch =
      clampR ((initOptions s.transform s.options).pitch -
          (sumDelta inp.mouseEvents).y * 0.5 *
            (initOptions s.transform s.options).sensitivity * inp.dt)
        (-0.99 * (Real.pi / 2)) (0.99 * (Real.pi / 2)) := by
  have hmb' : inp.mousePressed
      (initOptions s.transform s.options).mouse_key_enable_mouse = true := by
    rw [initOptions_mouse_key]; exact hmb
  unfold cameraController
  simp only [initOptions_enabled, hen, eq_self_iff_true, if_true]
  rw [frameMouseDelta_pressed]
  rw [lookUpdate_snd_pitch]
  · exact hd
  · exact hmb'

theorem cameraController_velocity (inp : CamInput) (s : CamState)
    (hen : s.options.enabled = true) :
    (cameraController inp s).options.velocity =
      updatedVelocity inp.keyPressed (initOptions s.transform s.options) := by
  unfold cameraController
  simp [initOptions_enabled, hen, lookUpdate_snd_velocity]

theorem cameraController_moveToggled (inp : CamInput) (s : CamState) :
    (cameraController inp s).moveToggled =
      if s.options.enabled = true then
        (if inp.keyJustPressed s.options.keyboard_key_enable_mouse = true
          then !s.moveToggled else s.moveToggled)
      else s.moveToggled := by
  unfold cameraController
  by_cases hen : s.options.enabled = true
  · simp [initOptions_enabled, initOptions_keyboard, hen]
  · simp [initOptions_enabled, hen]

theorem cameraController_enabled (inp : CamInput) (s : CamState) :
    (cameraController inp s).options.enabled = s.options.enabled := by
  unfold cameraController
  by_cases hen : s.options.enabled = true
  · simp [initOptions_enabled, hen, lookUpdate_snd_enabled]
  · simp [initOptions_enabled, hen]

theorem cameraController_keyboard (inp : CamInput) (s : CamState) :
    (cameraController inp s).options.keyboard_key_enable_mouse =
      s.options.keyboard_key_enable_mouse := by
  unfold cameraController
  by_cases hen : s.options.enabled = true
  · simp [initOptions_enabled, initOptions_keyboard, hen, lookUpdate_snd_keyboard]
  · simp [initOptions_enabled, initOptions_keyboard, hen]

theorem decayVelocity_eq (c : CameraController) :
    decayVelocity c =
      if (Vec3.smul (1 - clampR c.friction 0 1) c.velocity).lengthSquared < 1e-6
      then Vec3.zero else Vec3.smul (1 - clampR c.friction 0 1) c.velocity := rfl

theorem decayVelocity_initOptions (t : Transform) (c : CameraController) :
    decayVelocity (initOptions t c) = decayVelocity c := by
  rw [decayVelocity_eq, decayVelocity_eq, initOptions_friction, initOptions_velocity]

theorem cameraController_still_velocity (dt : ℝ) (s : CamState)
    (hen : s.options.enabled = true) :
    (cameraController (stillInput dt) s).options.velocity = decayVelocity s.options := by
  rw [cameraController_velocity _ s hen]
  have hax : axisInput (stillInput dt).keyPressed (initOptions s.transform s.options) =
      Vec3.zero := rfl
  unfold updatedVelocity
  rw [if_neg (not_not_intro hax), decayVelocity_initOptions]

theorem cameraController_friction (inp : CamInput) (s : CamState) :
    (cameraController inp s).options.friction = s.options.friction := by
  unfold cameraController
  by_cases hen : s.options.enabled = true
  · simp [initOptions_enabled, hen, lookUpdate_snd_friction, initOptions_friction]
  · simp [initOptions_enabled, hen, initOptions_friction]

theorem iterCamera_enabled (inp : CamInput) (n : Nat) (s : CamState) :
    (iterCamera inp n s).options.enabled = s.options.enabled := by
  induction n with
  | zero => rfl
  | succ n ih =>
    show (cameraController inp (iterCamera inp n s)).options.enabled = _
    rw [cameraController_enabled, ih]

theorem iterCamera_friction (inp : CamInput) (n : Nat) (s : CamState) :
    (iterCamera inp n s).options.friction = s.options.friction := by
  induction n with
  | zero => rfl
  | succ n ih =>
    show (cameraController inp (iterCamera inp n s)).options.friction = _
    rw [cameraController_friction, ih]

theorem lengthSquared_zero : (Vec3.zero).lengthSquared = 0 := by
  norm_num [Vec3.zero, Vec3.lengthSquared]

theorem decayVelocity_ls_le (c : CameraController) :
    (decayVelocity c).lengthSquared ≤
      (1 - clampR c.friction 0 1) * c.velocity.lengthSquared := by
  obtain ⟨h0, h1⟩ := clampR_mem c.friction 0 1 zero_le_one
  have hv := Vec3.lengthSquared_nonneg c.velocity
  rw [decayVelocity_eq]
  split_ifs with h
  · rw [lengthSquared_zero]
    exact mul_nonneg (by linarith) hv
  · rw [Vec3.lengthSquared_smul]
    have hg0' : 0 ≤ 1 - clampR c.friction 0 1 := by linarith
    nlinarith [mul_nonneg (mul_nonneg hg0' hv) h0]

theorem iterCamera_still_ls (dt : ℝ) (s : CamState) (hen : s.options.enabled = true) :
    ∀ n : Nat,
      (iterCamera (stillInput dt) n s).options.velocity.lengthSquared ≤
        (1 - clampR s.options.friction 0 1) ^ n * s.options.velocity.lengthSquared := by
  intro n
  induction n with
  | zero => rw [pow_zero, one_mul]; exact le_refl _
  | succ n ih =>
    have henn : (iterCamera (stillInput dt) n s).options.enabled = true := by
      rw [iterCamera_enabled]; exact hen
    have hstep : (iterCamera (stillInput dt) (n + 1) s).options.velocity =
        decayVelocity (iterCamera (stillInput dt) n s).options := by
      show (cameraController (stillInput dt) _).options.velocity = _
      exact cameraController_still_velocity dt _ henn
    have hb := decayVelocity_ls_le (iterCamera (stillInput dt) n s).options
    rw [iterCamera_friction] at hb
    have hg0 : 0 ≤ 1 - clampR s.options.friction 0 1 := by
      obtain ⟨h0, h1⟩ := clampR_mem s.options.friction 0 1 zero_le_one
      linarith
    calc (iterCamera (stillInput dt) (n + 1) s).options.velocity.lengthSquared
        ≤ (1 - clampR s.options.friction 0 1) *
            (iterCamera (stillInput dt) n s).options.velocity.lengthSquared := by
          rw [hstep]; exact hb
      _ ≤ (1 - clampR s.options.friction 0 1) *
            ((1 - clampR s.options.friction 0 1) ^ n * s.options.velocity.lengthSquared) :=
          mul_le_mul_of_nonneg_left ih hg0
      _ = (1 - clampR s.options.friction 0 1) ^ (n + 1) *
            s.options.velocity.lengthSquared := by ring

theorem still_eventually_zero (dt : ℝ) (s : CamState) (hen : s.options.enabled = true)
    (hf : 0 < s.options.friction) :
    ∃ n, (iterCamera (stillInput dt) n s).options.velocity = Vec3.zero := by
  obtain ⟨hc0, hc1⟩ := clampR_mem s.options.friction 0 1 zero_le_one
  have hcpos : 0 < clampR s.options.friction 0 1 := by
    unfold clampR
    split_ifs with h1 h2
    · linarith
    · norm_num
    · exact hf
  have hg0 : 0 ≤ 1 - clampR s.options.friction 0 1 := by linarith
  have hg1 : 1 - clampR s.options.friction 0 1 < 1 := by linarith
  have hL0 : 0 ≤ s.options.velocity.lengthSquared := Vec3.lengthSquared_nonneg _
  obtain ⟨n, hn⟩ := exists_pow_lt_of_lt_one
    (show (0:ℝ) < 1e-6 / (s.options.velocity.lengthSquared + 1) by positivity) hg1
  have hls : (iterCamera (stillInput dt) n s).options.velocity.lengthSquared < 1e-6 := by
    have h1 := iterCamera_still_ls dt s hen n
    have h2 : (1 - clampR s.options.friction 0 1) ^ n * s.options.velocity.lengthSquared ≤
        (1 - clampR s.options.friction 0 1) ^ n * (s.options.velocity.lengthSquared + 1) :=
      mul_le_mul_of_nonneg_left (by linarith) (pow_nonneg hg0 n)
    have h3 : (1 - clampR s.options.friction 0 1) ^ n *
          (s.options.velocity.lengthSquared + 1) <
        (1e-6 / (s.options.velocity.lengthSquared + 1)) *
          (s.options.velocity.lengthSquared + 1) :=
      mul_lt_mul_of_pos_right hn (by linarith)
    have h4 : (1e-6 / (s.options.velocity.lengthSquared + 1)) *
        (s.options.velocity.lengthSquared + 1) = 1e-6 :=
      div_mul_cancel₀ _ (by positivity)
    linarith
  refine ⟨n + 1, ?_⟩
  have henn : (iterCamera (stillInput dt) n s).options.enabled = true := by
    rw [iterCamera_enabled]; exact hen
  show (cameraController (stillInput dt) (iterCamera (stillInput dt) n s)).options.velocity =
    Vec3.zero
  rw [cameraController_still_velocity dt _ henn, decayVelocity_eq, if_pos]
  rw [Vec3.lengthSquared_smul, iterCamera_friction]
  have hvn := Vec3.lengthSquared_nonneg (iterCamera (stillInput dt) n s).options.velocity
  nlinarith

/-! ### Claim theorems -/

/-- C4: on a frame where the controller is disabled and initialization has
already occurred, `camera_controller` leaves the whole camera state
(transform, controller fields, mouse-look latch) unchanged. -/
theorem disabled_frame_is_noop (inp : CamInput) (s : CamState)
    (hinit : s.options.initialized = true) (hen : s.options.enabled = false) :
    cameraController inp s = s := by
  have h1 : initOptions s.transform s.options = s.options := by
    unfold initOptions; simp [hinit]
  unfold cameraController
  rw [h1]
  simp [hen]

/-- Witness for C4 at a concrete disabled, initialized state. -/
theorem disabled_frame_is_noop_witness :
    cameraController (stillInput 1) disabledCamState = disabledCamState :=
  disabled_frame_is_noop (stillInput 1) disabledCamState rfl rfl

/-- C8: with no CLI argument the bundled default asset (with `#Scene`
selector) is used; an argument without the `#Scene` suffix gets it
appended; an argument already ending in `#Scene` is used unchanged. -/
theorem scenePath_spec :
    scenePath none = "assets/cube.fbx#Scene" ∧
    (∀ s : String, endsWithStr s "#Scene" = false → scenePath (some s) = s ++ "#Scene") ∧
    (∀ s : String, endsWithStr s "#Scene" = true → scenePath (some s) = s) := by
  refine ⟨by decide, ?_, ?_⟩ <;> intro s h <;> simp [scenePath, h]

/-- Witness for C8 on concrete paths. -/
theorem scenePath_spec_witness :
    scenePath (some "model.fbx") = "model.fbx#Scene" ∧
    scenePath (some "a.fbx#Scene") = "a.fbx#Scene" :=
  ⟨scenePath_spec.2.1 "model.fbx" (by decide),
   scenePath_spec.2.2 "a.fbx#Scene" (by decide)⟩

/-- C10: the six frustum-adjustment keys form an exclusive else-if chain in
the order 5,6,7,8,9,0: only the first just-pressed key in that order takes
effect, and at most one component of the adjustment differs from 1. -/
theorem projectionAdjustment_priority (just : KeyCode → Bool) :
    (just KeyCode.Key5 = true → projectionAdjustment just = ⟨1 - SCALE_STEP, 1, 1⟩) ∧
    (just KeyCode.Key5 = false → just KeyCode.Key6 = true →
      projectionAdjustment just = ⟨1 + SCALE_STEP, 1, 1⟩) ∧
    (just KeyCode.Key5 = false → just KeyCode.Key6 = false → just KeyCode.Key7 = true →
      projectionAdjustment just = ⟨1, 1 - SCALE_STEP, 1⟩) ∧
    (just KeyCode.Key5 = false → just KeyCode.Key6 = false → just KeyCode.Key7 = false →
      just KeyCode.Key8 = true → projectionAdjustment just = ⟨1, 1 + SCALE_STEP, 1⟩) ∧
    (just KeyCode.Key5 = false → just KeyCode.Key6 = false → just KeyCode.Key7 = false →
      just KeyCode.Key8 = false → just KeyCode.Key9 = true →
      projectionAdjustment just = ⟨1, 1, 1 - SCALE_STEP⟩) ∧
    (just KeyCode.Key5 = false → just KeyCode.Key6 = false → just KeyCode.Key7 = false →
      just KeyCode.Key8 = false → just KeyCode.Key9 = false → just KeyCode.Key0 = true →
      projectionAdjustment just = ⟨1, 1, 1 + SCALE_STEP⟩) ∧
    (just KeyCode.Key5 = false → just KeyCode.Key6 = false → just KeyCode.Key7 = false →
      just KeyCode.Key8 = false → just KeyCode.Key9 = false → just KeyCode.Key0 = false →
      projectionAdjustment just = ⟨1, 1, 1⟩) ∧
    (((projectionAdjustment just).y = 1 ∧ (projectionAdjustment just).z = 1) ∨
     ((projectionAdjustment just).x = 1 ∧ (projectionAdjustment just).z = 1) ∨
     ((projectionAdjustment just).x = 1 ∧ (projectionAdjustment just).y = 1)) := by
  refine ⟨?_, ?_, ?_, ?_, ?_, ?_, ?_, ?_⟩
  · intro h5; simp [projectionAdjustment, Vec3.one, h5]
  · intro h5 h6; simp [projectionAdjustment, Vec3.one, h5, h6]
  · intro h5 h6 h7; simp [projectionAdjustment, Vec3.one, h5, h6, h7]
  · intro h5 h6 h7 h8; simp [projectionAdjustment, Vec3.one, h5, h6, h7, h8]
  · intro h5 h6 h7 h8 h9; simp [projectionAdjustment, Vec3.one, h5, h6, h7, h8, h9]
  · intro h5 h6 h7 h8 h9 h0; simp [projectionAdjustment, Vec3.one, h5, h6, h7, h8, h9, h0]
  · intro h5 h6 h7 h8 h9 h0; simp [projectionAdjustment, Vec3.one, h5, h6, h7, h8, h9, h0]
  · unfold projectionAdjustment
    split_ifs <;> simp [Vec3.one]

/-- Witness for C10: with every adjustment key just-pressed at once, only
key 5 (first in the chain) takes effect. -/
theorem projectionAdjustment_priority_witness :
    projectionAdjustment (fun _ => true) = ⟨1 - SCALE_STEP, 1, 1⟩ :=
  (projectionAdjustment_priority (fun _ => true)).1 rfl

/-- C5: with the decrease step applied multiplicatively (factor
`1 - SCALE_STEP`) and no clamping, repeated presses of the decrease key
leave a frustum bound (here `left`, starting at `-97`) at a negative
value. -/
theorem frustum_bound_negative :
    ∃ n, 0 < n ∧
      (iterLights (onlyKey KeyCode.Key5 0) n
        (⟨idTransform, setupLight⟩, false)).1.light.shadow_projection.left < 0 := by
  refine ⟨1, Nat.one_pos, ?_⟩
  show (updateLights (onlyKey KeyCode.Key5 0) ⟨idTransform, setupLight⟩
    false).1.light.shadow_projection.left < 0
  have h5 : (onlyKey KeyCode.Key5 0).keyJustPressed KeyCode.Key5 = true := rfl
  have hadj : projectionAdjustment (onlyKey KeyCode.Key5 0).keyJustPressed =
      ⟨1 - SCALE_STEP, 1, 1⟩ := by
    simp [projectionAdjustment, Vec3.one, onlyKey]
  unfold updateLights
  rw [hadj]
  norm_num [setupLight, setupProjection, onlyKey, SCALE_STEP]
  split_ifs <;> norm_num

/-- C6: on a frame where only the shadow-toggle key `U` is just-pressed
(and the animate flag is off), `update_lights` negates `shadows_enabled`
and leaves every other light field, the transform and the flag unchanged. -/
theorem shadow_toggle_flip (inp : LightInput) (s : LightState) (animate : Bool)
    (hU : inp.keyJustPressed KeyCode.U = true)
    (h5 : inp.keyJustPressed KeyCode.Key5 = false)
    (h6 : inp.keyJustPressed KeyCode.Key6 = false)
    (h7 : inp.keyJustPressed KeyCode.Key7 = false)
    (h8 : inp.keyJustPressed KeyCode.Key8 = false)
    (h9 : inp.keyJustPressed KeyCode.Key9 = false)
    (h0 : inp.keyJustPressed KeyCode.Key0 = false)
    (hL : inp.keyJustPressed KeyCode.L = false)
    (han : animate = false) :
    updateLights inp s animate =
      (⟨s.transform, { s.light with shadows_enabled := !s.light.shadows_enabled }⟩, false) := by
  unfold updateLights
  simp [projectionAdjustment, Vec3.one, hU, h5, h6, h7, h8, h9, h0, hL, han]

/-- Witness for C6: toggling shadows on the light spawned by `setup`. -/
theorem shadow_toggle_flip_witness :
    updateLights (onlyKey KeyCode.U 0) ⟨idTransform, setupLight⟩ false =
      (⟨idTransform, { setupLight with shadows_enabled := true }⟩, false) := by
  have h := shadow_toggle_flip (onlyKey KeyCode.U 0) ⟨idTransform, setupLight⟩ false
    rfl rfl rfl rfl rfl rfl rfl rfl rfl
  simpa [setupLight] using h

/-- C9: the animate flag flips exactly on frames where `L` is just-pressed,
and while the (updated) flag is active the light's rotation is overwritten
with yaw `t·TAU/30` about the vertical axis, constant tilt `-TAU/8` and
zero roll, where `t` is elapsed process time. -/
theorem animate_light_rotation (inp : LightInput) (s : LightState) (animate : Bool) :
    (updateLights inp s animate).2 =
      (if inp.keyJustPressed KeyCode.L = true then !animate else animate) ∧
    ((if inp.keyJustPressed KeyCode.L = true then !animate else animate) = true →
      (updateLights inp s animate).1.transform.rotation =
        Quat.fromEulerZYX 0 (inp.secondsSinceStartup * TAU / 30) (-TAU / 8)) := by
  constructor
  · unfold updateLights
    simp
  · intro h
    unfold updateLights
    simp only [h]
    simp

/-- C1: on an enabled frame with non-zero movement axis input, the new
velocity is the normalized input vector scaled by run speed (run key held)
or walk speed, and its magnitude is exactly that speed. -/
theorem nonzero_input_velocity (inp : CamInput) (s : CamState)
    (hen : s.options.enabled = true)
    (hax : axisInput inp.keyPressed s.options ≠ Vec3.zero)
    (hw : 0 ≤ s.options.walk_speed) (hr : 0 ≤ s.options.run_speed) :
    (cameraController inp s).options.velocity =
      (axisInput inp.keyPressed s.options).normalize.mulScalar
        (if inp.keyPressed s.options.key_run = true then s.options.run_speed
         else s.options.walk_speed) ∧
    (cameraController inp s).options.velocity.length =
      (if inp.keyPressed s.options.key_run = true then s.options.run_speed
       else s.options.walk_speed) := by
  have hax' : axisInput inp.keyPressed (initOptions s.transform s.options) ≠ Vec3.zero := by
    rw [axisInput_congr]; exact hax
  have hvel : (cameraController inp s).options.velocity =
      (axisInput inp.keyPressed s.options).normalize.mulScalar
        (if inp.keyPressed s.options.key_run = true then s.options.run_speed
         else s.options.walk_speed) := by
    rw [cameraController_velocity inp s hen]
    unfold updatedVelocity
    rw [if_pos hax', axisInput_congr, (initOptions_keys s.transform s.options).2.2.2.2.2.2,
      (initOptions_speeds s.transform s.options).1, (initOptions_speeds s.transform s.options).2]
  refine ⟨hvel, ?_⟩
  rw [hvel]
  by_cases hrun : inp.keyPressed s.options.key_run = true
  · rw [if_pos hrun, Vec3.length_mulScalar, Vec3.normalize_length _ hax, one_mul,
      abs_of_nonneg hr]
  · rw [if_neg hrun, Vec3.length_mulScalar, Vec3.normalize_length _ hax, one_mul,
      abs_of_nonneg hw]

/-- Witness for C1: forward + right with run held and `run_speed = 15`
yields `normalize((1,0,1)) * 15` with magnitude exactly 15. -/
theorem nonzero_input_velocity_witness :
    (cameraController runDiagInput defaultCamState).options.velocity =
      (Vec3.normalize ⟨1, 0, 1⟩).mulScalar 15 ∧
    (cameraController runDiagInput defaultCamState).options.velocity.length = 15 := by
  have haxval : axisInput runDiagInput.keyPressed defaultCamState.options = ⟨1, 0, 1⟩ := by
    simp [axisInput, runDiagInput, defaultCamState, CameraController.default, Vec3.zero]
  have hax : axisInput runDiagInput.keyPressed defaultCamState.options ≠ Vec3.zero := by
    rw [haxval]
    simp only [Vec3.zero, ne_eq, Vec3.mk.injEq, not_and]
    norm_num
  have hrun : runDiagInput.keyPressed defaultCamState.options.key_run = true := rfl
  have h := nonzero_input_velocity runDiagInput defaultCamState rfl hax
    (by norm_num [defaultCamState, CameraController.default])
    (by norm_num [defaultCamState, CameraController.default])
  constructor
  · rw [h.1, haxval, if_pos hrun]
    norm_num [defaultCamState, CameraController.default]
  · rw [h.2, if_pos hrun]
    norm_num [defaultCamState, CameraController.default]

/-- C2 (amended): on an enabled zero-input frame the velocity is multiplied
by `1 - clamp(friction, 0, 1)` and snapped to exactly zero once its squared
magnitude is below `1e-6`; when moreover `friction > 0` (the original
claim's `friction ∈ [0,1]` fails at `friction = 0`), finitely many
zero-input frames drive the velocity to exactly zero. -/
theorem friction_decay (dt : ℝ) (s : CamState) (hen : s.options.enabled = true) :
    ((cameraController (stillInput dt) s).options.velocity =
      if (Vec3.smul (1 - clampR s.options.friction 0 1) s.options.velocity).lengthSquared < 1e-6
      then Vec3.zero
      else Vec3.smul (1 - clampR s.options.friction 0 1) s.options.velocity) ∧
    (0 < s.options.friction →
      ∃ n, (iterCamera (stillInput dt) n s).options.velocity = Vec3.zero) := by
  constructor
  · rw [cameraController_still_velocity dt s hen, decayVelocity_eq]
  · intro hf
    exact still_eventually_zero dt s hen hf

/-- Witness for C2: friction `0.5` and velocity `(4,0,0)`; one zero-input
frame yields `(2,0,0)`, and some finite number of frames reaches zero. -/
theorem friction_decay_witness :
    (cameraController (stillInput 1) decayCamState).options.velocity = ⟨2, 0, 0⟩ ∧
    ∃ n, (iterCamera (stillInput 1) n decayCamState).options.velocity = Vec3.zero := by
  have h := friction_decay 1 decayCamState rfl
  constructor
  · rw [h.1]
    norm_num [decayCamState, CameraController.default, clampR, Vec3.smul, Vec3.lengthSquared,
      Vec3.zero, Vec3.mk.injEq]
  · exact h.2 (by norm_num [decayCamState, CameraController.default])

/-- Counterexample to C2 as stated: with `friction = 0` (allowed by the
claim's `friction ∈ [0,1]`) and velocity `(4,0,0)`, no number of zero-input
frames ever makes the velocity zero — it stays `(4,0,0)` forever. -/
theorem friction_decay_counterexample :
    ¬ ∃ n, (iterCamera (stillInput 1) n fric0CamState).options.velocity = Vec3.zero := by
  have hvel : ∀ n, (iterCamera (stillInput 1) n fric0CamState).options.velocity = ⟨4, 0, 0⟩ := by
    intro n
    induction n with
    | zero => rfl
    | succ n ih =>
      have henn : (iterCamera (stillInput 1) n fric0CamState).options.enabled = true := by
        rw [iterCamera_enabled]; rfl
      have hfr : (iterCamera (stillInput 1) n fric0CamState).options.friction = 0 := by
        rw [iterCamera_friction]; rfl
      show (cameraController (stillInput 1)
        (iterCamera (stillInput 1) n fric0CamState)).options.velocity = _
      rw [cameraController_still_velocity 1 _ henn, decayVelocity_eq, hfr, ih]
      norm_num [clampR, Vec3.smul, Vec3.lengthSquared, Vec3.zero, Vec3.mk.injEq]
  rintro ⟨n, hn⟩
  rw [hvel n] at hn
  norm_num [Vec3.zero, Vec3.mk.injEq] at hn

/-- C3 (amended): after any mouse-look update, whatever the accumulated
delta, the stored pitch lies in the CLOSED interval
`[-0.99·π/2, 0.99·π/2]` (still strictly inside ±90°); the endpoints are
attained for large deltas, so the open interval of the original claim
fails. -/
theorem pitch_always_clamped (inp : CamInput) (s : CamState)
    (hen : s.options.enabled = true)
    (hmb : inp.mousePressed s.options.mouse_key_enable_mouse = true)
    (hd : sumDelta inp.mouseEvents ≠ Vec2.zero) :
    -0.99 * (Real.pi / 2) ≤ (cameraController inp s).options.pitch ∧
    (cameraController inp s).options.pitch ≤ 0.99 * (Real.pi / 2) := by
  rw [cameraController_pitch inp s hen hmb hd]
  exact clampR_mem _ _ _ (by nlinarith [Real.pi_pos])

/-- Witness for C3 at a concrete mouse-look frame. -/
theorem pitch_always_clamped_witness :
    -0.99 * (Real.pi / 2) ≤ (cameraController lookInput defaultCamState).options.pitch ∧
    (cameraController lookInput defaultCamState).options.pitch ≤ 0.99 * (Real.pi / 2) :=
  pitch_always_clamped lookInput defaultCamState rfl rfl
    (by norm_num [sumDelta, lookInput, Vec2.zero, Vec2.add])

/-- Counterexample to C3 as stated: a huge downward mouse delta drives the
pitch to exactly the clamp bound `-0.99·π/2`, which is NOT strictly within
the open interval `(-0.99·π/2, 0.99·π/2)`. -/
theorem pitch_open_interval_counterexample :
    ¬(-0.99 * (Real.pi / 2) < (cameraController bigLookInput defaultCamState).options.pitch ∧
      (cameraController bigLookInput defaultCamState).options.pitch < 0.99 * (Real.pi / 2)) := by
  have hd : sumDelta bigLookInput.mouseEvents ≠ Vec2.zero := by
    norm_num [sumDelta, bigLookInput, Vec2.zero, Vec2.add]
  have hp := cameraController_pitch bigLookInput defaultCamState rfl rfl hd
  have hval : (initOptions defaultCamState.transform defaultCamState.options).pitch -
      (sumDelta bigLookInput.mouseEvents).y * 0.5 *
        (initOptions defaultCamState.transform defaultCamState.options).sensitivity *
        bigLookInput.dt = -2500 := by
    norm_num [initOptions, defaultCamState, CameraController.default, idTransform,
      Quat.toEulerYXZ, sumDelta, bigLookInput, Vec2.add, Vec2.zero]
  rw [hval] at hp
  have hlt : (-2500 : ℝ) < -0.99 * (Real.pi / 2) := by
    nlinarith [Real.pi_le_four, Real.pi_pos]
  have hend : (cameraController bigLookInput defaultCamState).options.pitch
      = -0.99 * (Real.pi / 2) := by
    rw [hp]; unfold clampR; rw [if_pos hlt]
  rw [hend]
  intro hcon
  exact lt_irrefl _ hcon.1

/-- C7: two frames that each just-press the mouse-look toggle key return
the mouse-look latch to its original value, whatever the rest of the
state and inputs do. -/
theorem mouse_toggle_twice (inp1 inp2 : CamInput) (s : CamState)
    (h1 : inp1.keyJustPressed s.options.keyboard_key_enable_mouse = true)
    (h2 : inp2.keyJustPressed s.options.keyboard_key_enable_mouse = true) :
    (cameraController inp2 (cameraController inp1 s)).moveToggled = s.moveToggled := by
  have e1 := cameraController_enabled inp1 s
  have k1 := cameraController_keyboard inp1 s
  by_cases hen : s.options.enabled = true
  · have m1 : (cameraController inp1 s).moveToggled = !s.moveToggled := by
      rw [cameraController_moveToggled]; simp [hen, h1]
    rw [cameraController_moveToggled, e1, k1, m1]
    simp [hen, h2]
  · have m1 : (cameraController inp1 s).moveToggled = s.moveToggled := by
      rw [cameraController_moveToggled]; simp [hen]
    rw [cameraController_moveToggled, e1, k1, m1]
    simp [hen]

/-- Witness for C7 at the default camera state. -/
theorem mouse_toggle_twice_witness :
    (cameraController pressMInput (cameraController pressMInput defaultCamState)).moveToggled =
      false :=
  mouse_toggle_twice pressMInput pressMInput defaultCamState rfl rfl

/-- Witness for C9: pressing `L` with the flag off at `t = 45`. -/
theorem animate_light_rotation_witness :
    (updateLights (onlyKey KeyCode.L 45) ⟨idTransform, setupLight⟩ false).2 = true ∧
    (updateLights (onlyKey KeyCode.L 45) ⟨idTransform, setupLight⟩ false).1.transform.rotation =
      Quat.fromEulerZYX 0 (45 * TAU / 30) (-TAU / 8) := by
  have h := animate_light_rotation (onlyKey KeyCode.L 45) ⟨idTransform, setupLight⟩ false
  have hL : (onlyKey KeyCode.L 45).keyJustPressed KeyCode.L = true := rfl
  have hcond : (if (onlyKey KeyCode.L 45).keyJustPressed KeyCode.L = true then !false else false)
      = true := by rw [hL]; rfl
  refine ⟨?_, ?_⟩
  · rw [h.1, hcond]
  · have h2 := h.2 hcond
    simpa [onlyKey] using h2

end SceneViewer
